import Mathlib

/-!
A verification development for the portage-set-helper repository.

The repository holds two near-duplicate Python implementations:

* `go.py` — the class-based implementation (`PortageSet`, `Entry`,
  `Comment`, `EBuild`, `main`).  It is syntactically valid Python and is
  embedded here as the authoritative parser/formatter/validator.
* `portage-set-helper.py` — the dict/function-based near duplicate.  It
  does not even parse as Python (`class PortageSet()` is missing its
  colon) and contains debug breakpoints and dead code; we embed the
  pieces of it that particular claims depend on (`import_portage_set`'s
  line classification and the collision gate of `go`).

Python exceptions (the uncaught `IndexError`s raised by `tokens[0]` on a
too-short token list and by `line.lstrip()[0]` on a whitespace-only
line) are modelled by `Option`: `none` is an escaping exception, which
aborts the surrounding loop exactly as the uncaught exception does.
-/

namespace PortageSetHelper

/-- The whitespace characters Python's `str.split()` and `str.lstrip()`
split on (for ASCII input): space, tab, newline, carriage return,
vertical tab and form feed. -/
def isPySpace (c : Char) : Bool :=
  c = ' ' || c = '\t' || c = '\n' || c = '\r' || c = '\x0b' || c = '\x0c'

/-- Python `line.split()` on a list of characters: maximal runs of
non-whitespace characters, with empty runs discarded (so leading,
trailing and repeated whitespace produce no empty tokens). -/
def pySplitChars (l : List Char) : List (List Char) :=
  (l.splitOnP isPySpace).filter (fun w => !w.isEmpty)

/-- Python `line.split()`. -/
def pySplit (s : String) : List String :=
  (pySplitChars s.data).map String.mk

/-- Python `line.lstrip()`: drop leading whitespace. -/
def pyLstrip (s : String) : String :=
  String.mk (s.data.dropWhile isPySpace)

/-- Lexicographic comparison of character lists by code point, the
order Python compares strings in: a strictly smaller first character
decides, a strictly larger one decides the other way, equal heads
recurse, and a proper prefix sorts first. -/
def lexLe : List Char → List Char → Bool
  | [], _ => true
  | _ :: _, [] => false
  | a :: as, b :: bs =>
    if a < b then true
    else if b < a then false
    else lexLe as bs

/-- Python string comparison (lexicographic by code point), as the
boolean comparator an alphabetical `list.sort()` sorts by. -/
def strLe (a b : String) : Bool :=
  lexLe a.data b.data

/-- Python `x[0] == c` for a token `x` produced by `str.split()` (such
tokens are never empty; on the empty string this is `false` where
Python would raise `IndexError`). -/
def firstIs (c : Char) (s : String) : Bool :=
  decide (s.data.head? = some c)

/-- A flag token that is neither `+`-prefixed nor `-`-prefixed. -/
def isBare (s : String) : Bool :=
  !firstIs '+' s && !firstIs '-' s

/-- The comparator of a Python stable sort with boolean key `k`
(`list.sort(key=k)` with `False` ordered before `True`). -/
def keyLe (k : α → Bool) (a b : α) : Bool :=
  !k a || k b

/-- Stable insertion of `x` into a list sorted by `le`: `x` goes in
front of the first element `y` with `le x y`, so elements that compare
equal keep their original relative order. -/
def insertS (le : α → α → Bool) (x : α) : List α → List α
  | [] => [x]
  | y :: ys => if le x y then x :: y :: ys else y :: insertS le x ys

/-- Stable sort by the comparator `le` (insertion sort).  A stable
sort's output is determined by the comparator alone, so this is
extensionally the sort Python's `list.sort` performs. -/
def stableSort (le : α → α → Bool) : List α → List α
  | [] => []
  | x :: xs => insertS le x (stableSort le xs)

/-- The three-pass USE-flag sort of `EBuild.__init__` (go.py lines
95-97): `uses.sort()`, then `uses.sort(key=lambda x: x[0]=='+')`, then
`uses.sort(key=lambda x: x[0]=='-')`, every pass stable. -/
def sortUses (uses : List String) : List String :=
  stableSort (keyLe (firstIs '-'))
    (stableSort (keyLe (firstIs '+')) (stableSort strLe uses))

/-- The fields of an `EBuild` entry (go.py `EBuild.__init__`); the
`path` and `line_no` bookkeeping used only in diagnostics is not
modelled. -/
structure EBuild where
  cpv : String
  uses : List String
  keyword : Bool
  skip : Bool
deriving DecidableEq

/-- `EBuild.__init__` (go.py lines 77-97): split the line, consume one
leading `!` (keyword) or `-` (skip) marker token, take the next token
as `cpv` and the rest, canonically sorted, as `uses`.  `none` is the
uncaught `IndexError` raised by `tokens[0]` when no token is left. -/
def parseEBuild (line : String) : Option EBuild :=
  match pySplit line with
  | [] => none
  | t0 :: rest =>
    if t0 = "!" then
      match rest with
      | [] => none
      | cpv :: uses => some ⟨cpv, sortUses uses, true, false⟩
    else if t0 = "-" then
      match rest with
      | [] => none
      | cpv :: uses => some ⟨cpv, sortUses uses, false, true⟩
    else
      some ⟨t0, sortUses rest, false, false⟩

/-- `EBuild.formatted` (go.py lines 154-169): render one entry for one
destination file; an unknown destination falls off the end of the
`if` chain (Python returns `None`). -/
def formatted (e : EBuild) (destination : String) : Option String :=
  if destination = "package.accept_keywords" then
    if e.keyword then some e.cpv else some ("#" ++ e.cpv)
  else if destination = "package.use" then
    if e.uses.isEmpty then some ("#" ++ e.cpv)
    else some (e.cpv ++ " " ++ String.intercalate " " e.uses)
  else if destination = "sets" then
    if e.skip then some ("#" ++ e.cpv ++ " (skipped)") else some e.cpv
  else
    none

/-- One entry of a portage set: a verbatim comment line or an ebuild
line (go.py classes `Comment` and `EBuild`). -/
inductive Entry
  | comment (line : String)
  | ebuild (e : EBuild)
deriving DecidableEq

/-- One iteration of `PortageSet.import_set`'s loop (go.py lines
27-31): an empty line is a comment; otherwise `line.lstrip()[0]` is
inspected — `none` is the uncaught `IndexError` this raises on a
non-empty whitespace-only line — and a `#` first character makes a
comment, anything else an `EBuild`. -/
def importLine (line : String) : Option Entry :=
  if line = "" then some (.comment line)
  else
    match (pyLstrip line).data with
    | [] => none
    | c :: _ =>
      if c = '#' then some (.comment line)
      else Option.map Entry.ebuild (parseEBuild line)

/-- `PortageSet.import_set` over the already-split lines of the file:
entries accumulate in order and an exception escaping any single line
aborts the whole import. -/
def importLines : List String → Option (List Entry)
  | [] => some []
  | l :: ls =>
    match importLine l with
    | none => none
    | some e => Option.map (fun es => e :: es) (importLines ls)

/-- One iteration of `import_portage_set`'s loop in
portage-set-helper.py (lines 131-150), the dict-based near duplicate:
classification is by `tokens` (so a whitespace-only line is a
comment), only `!` is recognised as a marker, and `uses` are stored
unsorted.  `none` is the `IndexError` raised by `tokens[1]` on a lone
`!` line. -/
def importLineDict (line : String) : Option Entry :=
  match pySplit line with
  | [] => some (.comment line)
  | t0 :: rest =>
    if firstIs '#' t0 then some (.comment line)
    else if t0 = "!" then
      match rest with
      | [] => none
      | atom :: uses => some (.ebuild ⟨atom, uses, true, false⟩)
    else
      some (.ebuild ⟨t0, rest, false, false⟩)

/-- `filtered_use` (go.py lines 119-124): strip one leading `+` or `-`
from a flag token to get its bare name (total where Python would raise
on an empty token, which `str.split()` never yields). -/
def stripSign (use : String) : String :=
  match use.data with
  | [] => use
  | c :: cs => if c = '+' || c = '-' then String.mk cs else use

/-- The external portage database exactly as `EBuild.check` consumes
it: `isvalidatom`, `xmatch(level='bestmatch-visible')` (the empty
string plays Python's falsy "no match"), and
`aux_get(resolved, ['IUSE'])[0]` (the space-separated declared flag
list). -/
structure PortageDB where
  isvalidatom : String → Bool
  xmatch : String → String
  iuse : String → String

/-- The bare names of the declared IUSE flags of a resolved package
(go.py line 126). -/
def declaredBare (db : PortageDB) (resolved : String) : Finset String :=
  ((pySplit (db.iuse resolved)).map stripSign).toFinset

/-- The bare names of the entry's requested flags (go.py line 127). -/
def requestedBare (e : EBuild) : Finset String :=
  (e.uses.map stripSign).toFinset

/-- The outcome of `EBuild.check` (go.py lines 107-136) with the
printed diagnostic carried as data: `unknownUseFlag` holds the set
`given_uses - ebuild_uses` whose names the diagnostic lists. -/
inductive CheckResult
  | ok
  | invalidAtom
  | atomNotFound
  | unknownUseFlag (unknown : Finset String)
deriving DecidableEq

/-- `EBuild.check` (go.py lines 107-136), with each `return False`
replaced by the failure kind it prints. -/
def checkR (db : PortageDB) (e : EBuild) : CheckResult :=
  if !db.isvalidatom e.cpv then .invalidAtom
  else
    let resolved := db.xmatch e.cpv
    if resolved = "" then .atomNotFound
    else
      let unknown := requestedBare e \ declaredBare db resolved
      if unknown = ∅ then .ok else .unknownUseFlag unknown

/-- The boolean `EBuild.check` returns: `True` only when every check
passed. -/
def check (db : PortageDB) (e : EBuild) : Bool :=
  match checkR db e with
  | .ok => true
  | _ => false

/-- The three destination subdirectories `main` writes (go.py line
205). -/
def destinations : List String :=
  ["package.accept_keywords", "package.use", "sets"]

/-- The line `main` prints to an output file for one entry (go.py line
212): a comment passes through verbatim, an ebuild is rendered by
`formatted` (Python would print a `None` result as the text "None"). -/
def entryLine (destination : String) : Entry → String
  | .comment line => line
  | .ebuild e => (formatted e destination).getD "None"

/-- The write phase of go.py `main` (lines 205-213): for every
(destination, set) pair — destination-major, as
`product(destinations, portage_sets)` iterates — the output file is
opened and written unconditionally.  There is no existence check and
the parsed `--force` flag is never read, so the result does not depend
on either.  Returns the (path, lines) pairs written. -/
def mainWrites (output : String) (psets : List (String × List Entry)) :
    List (String × List String) :=
  destinations.flatMap fun destination =>
    psets.map fun ps =>
      (output ++ "/" ++ destination ++ "/" ++ ps.1,
        ps.2.map (entryLine destination))

/-- The collision test of portage-set-helper.py `go` (lines 187-192):
the existence check over the three destination paths runs only when
`args.force` IS set (the condition is inverted), so with `force`
unset no collision is ever detected. -/
def collisionDetected (force : Bool) (pathExists : String → Bool)
    (paths : List String) : Bool :=
  if force then paths.any pathExists else false

/-- Following the words of the spec, for the round-trip claim: "the
line's atom string" is the first whitespace-delimited token after the
optional leading marker token. -/
def specAtomToken (line : String) : Option String :=
  match pySplit line with
  | [] => none
  | t0 :: rest => if t0 = "!" ∨ t0 = "-" then rest.head? else some t0

/-! ### Order properties of the string comparator -/

theorem lexLe_total : ∀ x y : List Char, lexLe x y = true ∨ lexLe y x = true
  | [], _ => Or.inl rfl
  | _ :: _, [] => Or.inr rfl
  | a :: as, b :: bs => by
    rcases lt_trichotomy a b with h | h | h
    · exact Or.inl (by simp [lexLe, h])
    · subst h
      rcases lexLe_total as bs with ih | ih
      · exact Or.inl (by simp [lexLe, lt_irrefl a, ih])
      · exact Or.inr (by simp [lexLe, lt_irrefl a, ih])
    · exact Or.inr (by simp [lexLe, h])

theorem lexLe_trans : ∀ {x y z : List Char},
    lexLe x y = true → lexLe y z = true → lexLe x z = true
  | [], _, _, _, _ => rfl
  | _ :: _, [], _, h1, _ => by simp [lexLe] at h1
  | _ :: _, _ :: _, [], _, h2 => by simp [lexLe] at h2
  | a :: as, b :: bs, c :: cs, h1, h2 => by
    rcases lt_trichotomy a b with hab | hab | hab
    · rcases lt_trichotomy b c with hbc | hbc | hbc
      · simp [lexLe, lt_trans hab hbc]
      · subst hbc; simp [lexLe, hab]
      · exfalso; simp [lexLe, hbc, lt_asymm hbc] at h2
    · subst hab
      simp only [lexLe, lt_irrefl a, if_neg (lt_irrefl a)] at h1
      rcases lt_trichotomy a c with hac | hac | hac
      · simp [lexLe, hac]
      · subst hac
        simp only [lexLe, lt_irrefl a, if_neg (lt_irrefl a)] at h2 ⊢
        exact lexLe_trans h1 h2
      · exfalso; simp [lexLe, hac, lt_asymm hac] at h2
    · exfalso; simp [lexLe, hab, lt_asymm hab] at h1

theorem lexLe_antisymm : ∀ {x y : List Char},
    lexLe x y = true → lexLe y x = true → x = y
  | [], [], _, _ => rfl
  | [], _ :: _, _, h2 => by simp [lexLe] at h2
  | _ :: _, [], h1, _ => by simp [lexLe] at h1
  | a :: as, b :: bs, h1, h2 => by
    rcases lt_trichotomy a b with hab | hab | hab
    · exfalso; simp [lexLe, hab, lt_asymm hab] at h2
    · subst hab
      simp only [lexLe, lt_irrefl a, if_neg (lt_irrefl a)] at h1 h2
      rw [lexLe_antisymm h1 h2]
    · exfalso; simp [lexLe, hab, lt_asymm hab] at h1

theorem strLe_total (a b : String) : strLe a b = true ∨ strLe b a = true :=
  lexLe_total a.data b.data

theorem strLe_trans {a b c : String} :
    strLe a b = true → strLe b c = true → strLe a c = true :=
  lexLe_trans

theorem strLe_antisymm {a b : String} :
    strLe a b = true → strLe b a = true → a = b := by
  intro h1 h2
  have h := lexLe_antisymm h1 h2
  cases a; cases b; exact congrArg String.mk h

/-! ### Stable sort lemmas -/

section StableSortLemmas

variable {α : Type} {le : α → α → Bool}

theorem insertS_perm (le : α → α → Bool) (x : α) :
    ∀ l : List α, List.Perm (insertS le x l) (x :: l)
  | [] => List.Perm.refl _
  | y :: ys => by
    by_cases h : le x y = true
    · simp only [insertS, if_pos h]
      exact List.Perm.refl _
    · simp only [insertS, if_neg h]
      exact ((insertS_perm le x ys).cons y).trans (List.Perm.swap x y ys)

theorem stableSort_perm (le : α → α → Bool) :
    ∀ l : List α, List.Perm (stableSort le l) l
  | [] => List.Perm.refl _
  | x :: xs => (insertS_perm le x _).trans ((stableSort_perm le xs).cons x)

theorem insertS_append_of_false {x : α} {f : List α}
    (hf : ∀ y ∈ f, le x y = false) (t : List α) :
    insertS le x (f ++ t) = f ++ insertS le x t := by
  induction f with
  | nil => rfl
  | cons y ys ih =>
    have hy : le x y = false := hf y (by simp)
    have ih1 := ih (fun z hz => hf z (by simp [hz]))
    simp [insertS, hy, ih1]

theorem insertS_eq_cons {x : α} {l : List α}
    (h : ∀ y, l.head? = some y → le x y = true) : insertS le x l = x :: l := by
  cases l with
  | nil => rfl
  | cons z zs => simp [insertS, h z rfl]

theorem keyLe_partition (k : α → Bool) : ∀ l : List α,
    stableSort (keyLe k) l = l.filter (fun a => !k a) ++ l.filter k := by
  intro l
  induction l with
  | nil => rfl
  | cons x xs ih =>
    simp only [stableSort, ih]
    by_cases hk : k x = true
    · have hf : ∀ y ∈ xs.filter (fun a => !k a), keyLe k x y = false := by
        intro y hy
        have hky : k y = false := by simpa using (List.mem_filter.mp hy).2
        simp [keyLe, hk, hky]
      rw [insertS_append_of_false hf]
      rw [insertS_eq_cons (fun y hy => by
        have hmem : y ∈ xs.filter k :=
          List.mem_of_mem_head? (Option.mem_def.mpr hy)
        have hky := (List.mem_filter.mp hmem).2
        simp [keyLe, hky])]
      simp [List.filter_cons, hk]
    · have hx : k x = false := by simpa using hk
      rw [insertS_eq_cons (fun y _ => by simp [keyLe, hx])]
      simp [List.filter_cons, hx]

theorem insertS_pairwise
    (htot : ∀ a b : α, le a b = true ∨ le b a = true)
    (htrans : ∀ a b c : α, le a b = true → le b c = true → le a c = true)
    (x : α) : ∀ {l : List α}, l.Pairwise (fun a b => le a b = true) →
      (insertS le x l).Pairwise (fun a b => le a b = true) := by
  intro l
  induction l with
  | nil => intro _; simp [insertS]
  | cons y ys ih =>
    intro h
    rcases List.pairwise_cons.mp h with ⟨hy, hys⟩
    by_cases hxy : le x y = true
    · simp only [insertS, if_pos hxy]
      refine List.pairwise_cons.mpr ⟨?_, h⟩
      intro z hz
      rcases List.mem_cons.mp hz with hz | hz
      · exact hz ▸ hxy
      · exact htrans x y z hxy (hy z hz)
    · simp only [insertS, if_neg hxy]
      refine List.pairwise_cons.mpr ⟨?_, ih hys⟩
      intro z hz
      rcases List.mem_cons.mp ((insertS_perm le x ys).mem_iff.mp hz) with hz | hz
      · rw [hz]
        rcases htot x y with ht | ht
        · exact absurd ht hxy
        · exact ht
      · exact hy z hz

theorem stableSort_pairwise
    (htot : ∀ a b : α, le a b = true ∨ le b a = true)
    (htrans : ∀ a b c : α, le a b = true → le b c = true → le a c = true) :
    ∀ l : List α, (stableSort le l).Pairwise (fun a b => le a b = true)
  | [] => List.Pairwise.nil
  | x :: xs =>
    insertS_pairwise htot htrans x (stableSort_pairwise htot htrans xs)

end StableSortLemmas

/-! ### The canonical USE-flag ordering -/

theorem firstIs_plus_not_minus {s : String} (h : firstIs '+' s = true) :
    firstIs '-' s = false := by
  simp only [firstIs, decide_eq_true_eq] at h
  simp [firstIs, h]

theorem firstIs_minus_not_plus {s : String} (h : firstIs '-' s = true) :
    firstIs '+' s = false := by
  simp only [firstIs, decide_eq_true_eq] at h
  simp [firstIs, h]

theorem isBare_not_plus {s : String} (h : isBare s = true) :
    firstIs '+' s = false := by
  simp only [isBare, Bool.and_eq_true, Bool.not_eq_true'] at h
  exact h.1

theorem isBare_not_minus {s : String} (h : isBare s = true) :
    firstIs '-' s = false := by
  simp only [isBare, Bool.and_eq_true, Bool.not_eq_true'] at h
  exact h.2

theorem plus_not_bare {s : String} (h : firstIs '+' s = true) :
    isBare s = false := by
  simp [isBare, h]

theorem minus_not_bare {s : String} (h : firstIs '-' s = true) :
    isBare s = false := by
  simp [isBare, h]

theorem stableSort_strLe_pairwise (l : List String) :
    (stableSort strLe l).Pairwise (fun a b => strLe a b = true) :=
  stableSort_pairwise strLe_total (fun _ _ _ h1 h2 => strLe_trans h1 h2) l

theorem sortUses_buckets (l : List String) :
    sortUses l =
      (stableSort strLe l).filter isBare
        ++ (stableSort strLe l).filter (firstIs '+')
        ++ (stableSort strLe l).filter (firstIs '-') := by
  unfold sortUses
  set S := stableSort strLe l with hS
  rw [keyLe_partition (firstIs '+') S, keyLe_partition (firstIs '-')]
  rw [List.filter_append, List.filter_append]
  have e1 : (List.filter (fun a => !firstIs '-' a) (S.filter fun a => !firstIs '+' a))
      = S.filter isBare := by
    rw [List.filter_filter]
    exact List.filter_congr (fun a _ => by simp [isBare, Bool.and_comm])
  have e2 : (S.filter (firstIs '+')).filter (fun a => !firstIs '-' a)
      = S.filter (firstIs '+') := by
    rw [List.filter_eq_self]
    intro a ha
    simp [firstIs_plus_not_minus ((List.mem_filter.mp ha).2)]
  have e3 : (List.filter (firstIs '-') (S.filter fun a => !firstIs '+' a))
      = S.filter (firstIs '-') := by
    rw [List.filter_filter]
    apply List.filter_congr
    intro a _
    by_cases hm : firstIs '-' a = true
    · simp [hm, firstIs_minus_not_plus hm]
    · have hm1 : firstIs '-' a = false := by simpa using hm
      simp [hm1]
  have e4 : (S.filter (firstIs '+')).filter (firstIs '-') = [] := by
    rw [List.filter_eq_nil_iff]
    intro a ha
    simp [firstIs_plus_not_minus ((List.mem_filter.mp ha).2)]
  rw [e1, e2, e3, e4, List.append_nil, List.append_assoc]

theorem sortUses_perm (l : List String) : List.Perm (sortUses l) l := by
  unfold sortUses
  exact (stableSort_perm _ _).trans
    ((stableSort_perm _ _).trans (stableSort_perm _ _))

theorem sortUses_filter_bare (l : List String) :
    (sortUses l).filter isBare = (stableSort strLe l).filter isBare := by
  rw [sortUses_buckets, List.filter_append, List.filter_append]
  have e1 : ((stableSort strLe l).filter isBare).filter isBare
      = (stableSort strLe l).filter isBare := by
    rw [List.filter_eq_self]
    intro a ha
    exact (List.mem_filter.mp ha).2
  have e2 : ((stableSort strLe l).filter (firstIs '+')).filter isBare = [] := by
    rw [List.filter_eq_nil_iff]
    intro a ha
    simp [plus_not_bare ((List.mem_filter.mp ha).2)]
  have e3 : ((stableSort strLe l).filter (firstIs '-')).filter isBare = [] := by
    rw [List.filter_eq_nil_iff]
    intro a ha
    simp [minus_not_bare ((List.mem_filter.mp ha).2)]
  rw [e1, e2, e3, List.append_nil, List.append_nil]

theorem sortUses_filter_plus (l : List String) :
    (sortUses l).filter (firstIs '+')
      = (stableSort strLe l).filter (firstIs '+') := by
  rw [sortUses_buckets, List.filter_append, List.filter_append]
  have e1 : ((stableSort strLe l).filter isBare).filter (firstIs '+') = [] := by
    rw [List.filter_eq_nil_iff]
    intro a ha
    simp [isBare_not_plus ((List.mem_filter.mp ha).2)]
  have e2 : ((stableSort strLe l).filter (firstIs '+')).filter (firstIs '+')
      = (stableSort strLe l).filter (firstIs '+') := by
    rw [List.filter_eq_self]
    intro a ha
    exact (List.mem_filter.mp ha).2
  have e3 : ((stableSort strLe l).filter (firstIs '-')).filter (firstIs '+') = [] := by
    rw [List.filter_eq_nil_iff]
    intro a ha
    simp [firstIs_minus_not_plus ((List.mem_filter.mp ha).2)]
  rw [e1, e2, e3, List.append_nil, List.nil_append]

theorem sortUses_filter_minus (l : List String) :
    (sortUses l).filter (firstIs '-')
      = (stableSort strLe l).filter (firstIs '-') := by
  rw [sortUses_buckets, List.filter_append, List.filter_append]
  have e1 : ((stableSort strLe l).filter isBare).filter (firstIs '-') = [] := by
    rw [List.filter_eq_nil_iff]
    intro a ha
    simp [isBare_not_minus ((List.mem_filter.mp ha).2)]
  have e2 : ((stableSort strLe l).filter (firstIs '+')).filter (firstIs '-') = [] := by
    rw [List.filter_eq_nil_iff]
    intro a ha
    simp [firstIs_plus_not_minus ((List.mem_filter.mp ha).2)]
  have e3 : ((stableSort strLe l).filter (firstIs '-')).filter (firstIs '-')
      = (stableSort strLe l).filter (firstIs '-') := by
    rw [List.filter_eq_self]
    intro a ha
    exact (List.mem_filter.mp ha).2
  rw [e1, e2, e3, List.nil_append, List.nil_append]

instance : IsAntisymm String (fun a b => strLe a b = true) :=
  ⟨fun _ _ h1 h2 => strLe_antisymm h1 h2⟩

theorem sorted_perm_eq {l1 l2 : List String}
    (hp : List.Perm l1 l2)
    (h1 : l1.Pairwise (fun a b => strLe a b = true))
    (h2 : l2.Pairwise (fun a b => strLe a b = true)) : l1 = l2 :=
  List.eq_of_perm_of_sorted hp h1 h2

/-- C1: the three-pass USE-flag sort (a stable alphabetical sort, then
a stable sort by "starts with `+`", then a stable sort by "starts with
`-`") yields exactly three contiguous buckets — all bare flags, then
all `+`-prefixed flags, then all `-`-prefixed flags, each bucket in
alphabetical order — holding exactly the input flags; in particular
the input from the claim sorts as stated. -/
theorem use_flag_sort_buckets (l : List String) :
    sortUses l =
        (sortUses l).filter isBare ++ (sortUses l).filter (firstIs '+')
          ++ (sortUses l).filter (firstIs '-')
      ∧ List.Perm (sortUses l) l
      ∧ ((sortUses l).filter isBare).Pairwise (fun a b => strLe a b = true)
      ∧ ((sortUses l).filter (firstIs '+')).Pairwise (fun a b => strLe a b = true)
      ∧ ((sortUses l).filter (firstIs '-')).Pairwise (fun a b => strLe a b = true)
      ∧ sortUses ["-foo", "+bar", "baz", "+alpha", "-zed"]
          = ["baz", "+alpha", "+bar", "-foo", "-zed"] := by
  refine ⟨?_, sortUses_perm l, ?_, ?_, ?_, by decide⟩
  · rw [sortUses_filter_bare, sortUses_filter_plus, sortUses_filter_minus]
    exact sortUses_buckets l
  · rw [sortUses_filter_bare]
    exact List.Pairwise.sublist (List.filter_sublist _) (stableSort_strLe_pairwise l)
  · rw [sortUses_filter_plus]
    exact List.Pairwise.sublist (List.filter_sublist _) (stableSort_strLe_pairwise l)
  · rw [sortUses_filter_minus]
    exact List.Pairwise.sublist (List.filter_sublist _) (stableSort_strLe_pairwise l)

/-- C9: the three-pass USE-flag sort is idempotent — applying it to its
own output returns that output unchanged. -/
theorem use_flag_sort_idempotent (l : List String) :
    sortUses (sortUses l) = sortUses l := by
  have hfb : (stableSort strLe (sortUses l)).filter isBare
      = (stableSort strLe l).filter isBare := by
    have hp := (stableSort_perm strLe (sortUses l)).filter isBare
    rw [sortUses_filter_bare] at hp
    exact sorted_perm_eq hp
      (List.Pairwise.sublist (List.filter_sublist _) (stableSort_strLe_pairwise _))
      (List.Pairwise.sublist (List.filter_sublist _) (stableSort_strLe_pairwise _))
  have hfp : (stableSort strLe (sortUses l)).filter (firstIs '+')
      = (stableSort strLe l).filter (firstIs '+') := by
    have hp := (stableSort_perm strLe (sortUses l)).filter (firstIs '+')
    rw [sortUses_filter_plus] at hp
    exact sorted_perm_eq hp
      (List.Pairwise.sublist (List.filter_sublist _) (stableSort_strLe_pairwise _))
      (List.Pairwise.sublist (List.filter_sublist _) (stableSort_strLe_pairwise _))
  have hfm : (stableSort strLe (sortUses l)).filter (firstIs '-')
      = (stableSort strLe l).filter (firstIs '-') := by
    have hp := (stableSort_perm strLe (sortUses l)).filter (firstIs '-')
    rw [sortUses_filter_minus] at hp
    exact sorted_perm_eq hp
      (List.Pairwise.sublist (List.filter_sublist _) (stableSort_strLe_pairwise _))
      (List.Pairwise.sublist (List.filter_sublist _) (stableSort_strLe_pairwise _))
  rw [sortUses_buckets (sortUses l), hfb, hfp, hfm, ← sortUses_buckets l]

/-! ### Formatting -/

theorem formatted_akw (e : EBuild) :
    formatted e "package.accept_keywords"
      = some (if e.keyword then e.cpv else "#" ++ e.cpv) := by
  cases hk : e.keyword <;> simp [formatted, hk]

theorem formatted_pu (e : EBuild) :
    formatted e "package.use"
      = some (if e.uses.isEmpty then "#" ++ e.cpv
          else e.cpv ++ " " ++ String.intercalate " " e.uses) := by
  cases hu : e.uses <;> simp [formatted, hu]

theorem formatted_sets (e : EBuild) :
    formatted e "sets"
      = some (if e.skip then "#" ++ e.cpv ++ " (skipped)" else e.cpv) := by
  cases hs : e.skip <;> simp [formatted, hs]

theorem skip_suffix_ne (cpv : String) : "#" ++ cpv ++ " (skipped)" ≠ cpv := by
  intro h
  have hlen := congrArg String.length h
  rw [String.length_append, String.length_append] at hlen
  have h1 : ("#" : String).length = 1 := rfl
  have h2 : (" (skipped)" : String).length = 10 := rfl
  rw [h1, h2] at hlen
  omega

/-- C2: the destination table of `EBuild.formatted`: to
`package.accept_keywords` a keyworded entry renders as its `cpv` and a
non-keyworded one commented out; to `package.use` an entry with flags
renders as `cpv` followed by its (canonically sorted) flags and one
without flags commented out; to `sets` a skipped entry renders
commented out with the `(skipped)` remark and any other entry as its
`cpv`; and toggling the skip marker changes the output for the `sets`
destination only. -/
theorem formatted_destination_table (cpv : String) (uses : List String)
    (kw sk : Bool) :
    formatted ⟨cpv, uses, kw, sk⟩ "package.accept_keywords"
        = some (if kw then cpv else "#" ++ cpv)
      ∧ formatted ⟨cpv, uses, kw, sk⟩ "package.use"
        = some (if uses.isEmpty then "#" ++ cpv
            else cpv ++ " " ++ String.intercalate " " uses)
      ∧ formatted ⟨cpv, uses, kw, sk⟩ "sets"
        = some (if sk then "#" ++ cpv ++ " (skipped)" else cpv)
      ∧ formatted ⟨cpv, uses, kw, true⟩ "package.accept_keywords"
        = formatted ⟨cpv, uses, kw, false⟩ "package.accept_keywords"
      ∧ formatted ⟨cpv, uses, kw, true⟩ "package.use"
        = formatted ⟨cpv, uses, kw, false⟩ "package.use"
      ∧ formatted ⟨cpv, uses, kw, true⟩ "sets"
        ≠ formatted ⟨cpv, uses, kw, false⟩ "sets" := by
  refine ⟨formatted_akw _, formatted_pu _, formatted_sets _, ?_, ?_, ?_⟩
  · rw [formatted_akw, formatted_akw]
  · rw [formatted_pu, formatted_pu]
  · rw [formatted_sets, formatted_sets]
    intro h
    exact skip_suffix_ne cpv (Option.some.inj h)

/-! ### Parsing -/

/-- C3: the parser consumes at most one leading marker token — a first
token `!` sets `keyword`, a first token `-` sets `skip` — the next
token becomes `cpv`, and all remaining tokens become the entry's
`uses` (canonically reordered but with every duplicate preserved: no
deduplication is performed). -/
theorem parse_marker_consumption (line : String) (e : EBuild)
    (h : parseEBuild line = some e) :
    ((pySplit line).head? = some "!" →
        e.keyword = true ∧ e.skip = false
          ∧ (pySplit line).tail.head? = some e.cpv
          ∧ e.uses = sortUses (pySplit line).tail.tail
          ∧ List.Perm e.uses (pySplit line).tail.tail)
      ∧ ((pySplit line).head? = some "-" →
        e.keyword = false ∧ e.skip = true
          ∧ (pySplit line).tail.head? = some e.cpv
          ∧ e.uses = sortUses (pySplit line).tail.tail
          ∧ List.Perm e.uses (pySplit line).tail.tail)
      ∧ (∀ t0, (pySplit line).head? = some t0 → t0 ≠ "!" → t0 ≠ "-" →
        e.keyword = false ∧ e.skip = false ∧ e.cpv = t0
          ∧ e.uses = sortUses (pySplit line).tail
          ∧ List.Perm e.uses (pySplit line).tail) := by
  simp only [parseEBuild] at h
  split at h
  · exact absurd h (by simp)
  · rename_i t0 rest heq
    rw [heq]
    by_cases h1 : t0 = "!"
    · subst h1
      rw [if_pos rfl] at h
      rcases rest with _ | ⟨cpv, uses⟩
      · exact absurd h (by simp)
      · obtain rfl : e = ⟨cpv, sortUses uses, true, false⟩ :=
          (Option.some.inj h).symm
        refine ⟨fun _ => ⟨rfl, rfl, rfl, rfl, sortUses_perm uses⟩, ?_, ?_⟩
        · intro hc
          exact absurd (Option.some.inj hc) (by decide)
        · intro t0' ht0 hne _
          exact absurd (Option.some.inj ht0).symm hne
    · rw [if_neg h1] at h
      by_cases h2 : t0 = "-"
      · subst h2
        rw [if_pos rfl] at h
        rcases rest with _ | ⟨cpv, uses⟩
        · exact absurd h (by simp)
        · obtain rfl : e = ⟨cpv, sortUses uses, false, true⟩ :=
            (Option.some.inj h).symm
          refine ⟨?_, fun _ => ⟨rfl, rfl, rfl, rfl, sortUses_perm uses⟩, ?_⟩
          · intro hc
            exact absurd (Option.some.inj hc) (by decide)
          · intro t0' ht0 _ hne
            exact absurd (Option.some.inj ht0).symm hne
      · rw [if_neg h2] at h
        obtain rfl : e = ⟨t0, sortUses rest, false, false⟩ :=
          (Option.some.inj h).symm
        refine ⟨?_, ?_, ?_⟩
        · intro hc
          exact absurd (Option.some.inj hc) h1
        · intro hc
          exact absurd (Option.some.inj hc) h2
        · intro t0' ht0 _ _
          obtain rfl : t0 = t0' := Option.some.inj ht0
          exact ⟨rfl, rfl, rfl, rfl, sortUses_perm rest⟩

/-- The first marker-consumption theorem applied at the concrete line
`! x/y +a +a`: the `!` is consumed, `x/y` becomes the atom and the
duplicated flag token survives twice. -/
theorem parse_marker_consumption_witness :
    (⟨"x/y", ["+a", "+a"], true, false⟩ : EBuild).keyword = true
      ∧ (⟨"x/y", ["+a", "+a"], true, false⟩ : EBuild).skip = false
      ∧ (pySplit "! x/y +a +a").tail.head?
          = some (⟨"x/y", ["+a", "+a"], true, false⟩ : EBuild).cpv
      ∧ (⟨"x/y", ["+a", "+a"], true, false⟩ : EBuild).uses
          = sortUses (pySplit "! x/y +a +a").tail.tail
      ∧ List.Perm (⟨"x/y", ["+a", "+a"], true, false⟩ : EBuild).uses
          (pySplit "! x/y +a +a").tail.tail :=
  (parse_marker_consumption "! x/y +a +a" ⟨"x/y", ["+a", "+a"], true, false⟩
      (by decide)).1 (by decide)

/-! ### Relating tokenisation and left-stripping -/

theorem pySplitChars_dropWhile (l : List Char) :
    pySplitChars l = pySplitChars (l.dropWhile isPySpace) := by
  induction l with
  | nil => rfl
  | cons c cs ih =>
    by_cases hc : isPySpace c = true
    · rw [List.dropWhile_cons_of_pos hc, ← ih]
      simp [pySplitChars, List.splitOnP_cons, hc]
    · rw [List.dropWhile_cons_of_neg (by simp [hc])]

theorem pySplitChars_nil_of_spaces {l : List Char}
    (h : ∀ c ∈ l, isPySpace c = true) : pySplitChars l = [] := by
  rw [pySplitChars_dropWhile, List.dropWhile_eq_nil_iff.mpr (by simpa using h)]
  rfl

/-- When tokenisation finds a first word starting with `c`, the
left-stripped line starts with that same character `c`. -/
theorem dropWhile_head_of_split {l : List Char} {c : Char} {w : List Char}
    {ws : List (List Char)} (h : pySplitChars l = (c :: w) :: ws) :
    ∃ cs, l.dropWhile isPySpace = c :: cs := by
  rw [pySplitChars_dropWhile] at h
  rcases hd : l.dropWhile isPySpace with _ | ⟨c0, cs⟩
  · rw [hd] at h
    simp [pySplitChars, List.splitOnP_nil] at h
  · rw [hd] at h
    have hc0 : isPySpace c0 = false := by
      have h0 := List.head?_dropWhile_not isPySpace l
      rw [hd] at h0
      simpa using h0
    obtain ⟨w0, ws0, hsp⟩ :=
      List.exists_cons_of_ne_nil (List.splitOnP_ne_nil isPySpace cs)
    rw [pySplitChars, List.splitOnP_cons, if_neg (by simp [hc0]), hsp] at h
    simp only [List.modifyHead_cons, List.filter_cons, List.isEmpty_cons,
      Bool.not_false, if_true] at h
    have hhead : c0 :: w0 = c :: w := (List.cons.inj h).1
    have hc0c : c0 = c := (List.cons.inj hhead).1
    rw [hc0c]
    exact ⟨cs, rfl⟩

theorem pySplit_singleton {line : String} {t : String}
    (h : pySplit line = [t]) : pySplitChars line.data = [t.data] := by
  rcases hm0 : pySplitChars line.data with _ | ⟨w, ws⟩
  · rw [pySplit, hm0] at h
    simp at h
  · rw [pySplit, hm0] at h
    simp only [List.map_cons] at h
    have h1 : String.mk w = t := (List.cons.inj h).1
    have h2 : List.map String.mk ws = ([] : List String) := (List.cons.inj h).2
    have hws : ws = [] := by simpa using h2
    subst hws
    rw [← h1]

theorem importLine_eq_parse {line : String} {c : Char} {cs : List Char}
    (hne : line ≠ "") (hd : line.data.dropWhile isPySpace = c :: cs)
    (hc : ¬c = '#') :
    importLine line = Option.map Entry.ebuild (parseEBuild line) := by
  rw [importLine, if_neg hne]
  have hld : (pyLstrip line).data = c :: cs := hd
  simp only [hld]
  rw [if_neg hc]

/-- C6: an input line consisting of exactly one marker token (`!` or
`-`) and no atom token makes the parser fail — the modelled
`IndexError` standing for the spec's `ParseError` — so the line is
neither silently skipped nor turned into an empty-atom entry, and
the import of any whole set containing the line is aborted. -/
theorem lone_marker_aborts (line : String)
    (h : pySplit line = ["!"] ∨ pySplit line = ["-"]) :
    parseEBuild line = none ∧ importLine line = none
      ∧ ∀ pre post : List String, importLines (pre ++ line :: post) = none := by
  have hp : parseEBuild line = none := by
    rcases h with h | h <;> simp [parseEBuild, h]
  have hx : ∃ c : Char, ¬c = '#' ∧ pySplitChars line.data = [[c]] := by
    rcases h with h | h
    · exact ⟨'!', by decide, pySplit_singleton h⟩
    · exact ⟨'-', by decide, pySplit_singleton h⟩
  obtain ⟨c, hcne, hm⟩ := hx
  have hne : line ≠ "" := by
    intro he
    rw [he] at hm
    simp [pySplitChars] at hm
  obtain ⟨cs, hdw⟩ := dropWhile_head_of_split hm
  have hil : importLine line = none := by
    rw [importLine_eq_parse hne hdw hcne, hp]
    rfl
  refine ⟨hp, hil, ?_⟩
  intro pre post
  induction pre with
  | nil => simp [importLines, hil]
  | cons p ps ih =>
    simp only [List.cons_append, importLines]
    cases hip : importLine p with
    | none => rfl
    | some e => simp [ih]

/-- The lone-marker theorem applied at the one-token line `!`: parsing
and importing fail, and a two-line set containing the line fails
to import as a whole. -/
theorem lone_marker_aborts_witness :
    parseEBuild "!" = none ∧ importLine "!" = none
      ∧ importLines ["x/y", "!"] = none := by
  have h := lone_marker_aborts "!" (Or.inl (by decide))
  exact ⟨h.1, h.2.1, h.2.2 ["x/y"] []⟩

/-- C7 counterexample: the valid EBuild line `- x/y` (atom `x/y`,
skip marker) parses, but formatting the parsed entry to the
set-membership destination yields `#x/y (skipped)`, not the atom
string. -/
theorem sets_roundtrip_cex :
    parseEBuild "- x/y" = some ⟨"x/y", [], false, true⟩
      ∧ specAtomToken "- x/y" = some "x/y"
      ∧ formatted ⟨"x/y", [], false, true⟩ "sets" = some "#x/y (skipped)"
      ∧ formatted ⟨"x/y", [], false, true⟩ "sets" ≠ some "x/y" :=
  ⟨by decide, by decide, by decide, by decide⟩

/-- C7 (amended): parsing a valid EBuild line and formatting the
entry to the set-membership destination yields exactly the line's
atom string whenever the line carries no skip marker; with the skip
marker it instead yields the atom commented out and suffixed
`(skipped)`. -/
theorem sets_roundtrip (line : String) (e : EBuild)
    (h : parseEBuild line = some e) :
    specAtomToken line = some e.cpv
      ∧ (e.skip = false → formatted e "sets" = some e.cpv)
      ∧ (e.skip = true →
          formatted e "sets" = some ("#" ++ e.cpv ++ " (skipped)")) := by
  refine ⟨?_, fun hs => by simp [formatted_sets, hs], fun hs => by
    simp [formatted_sets, hs]⟩
  simp only [parseEBuild] at h
  split at h
  · exact absurd h (by simp)
  · rename_i t0 rest heq
    simp only [specAtomToken, heq]
    by_cases h1 : t0 = "!"
    · subst h1
      rw [if_pos rfl] at h
      rcases rest with _ | ⟨cpv, uses⟩
      · exact absurd h (by simp)
      · obtain rfl : e = ⟨cpv, sortUses uses, true, false⟩ :=
          (Option.some.inj h).symm
        rw [if_pos (Or.inl rfl)]
        rfl
    · rw [if_neg h1] at h
      by_cases h2 : t0 = "-"
      · subst h2
        rw [if_pos rfl] at h
        rcases rest with _ | ⟨cpv, uses⟩
        · exact absurd h (by simp)
        · obtain rfl : e = ⟨cpv, sortUses uses, false, true⟩ :=
            (Option.some.inj h).symm
          rw [if_pos (Or.inr rfl)]
          rfl
      · rw [if_neg h2] at h
        obtain rfl : e = ⟨t0, sortUses rest, false, false⟩ :=
          (Option.some.inj h).symm
        rw [if_neg (fun hor => hor.elim h1 h2)]

/-- The amended round-trip theorem applied at the keyworded line
`! x/y`: the set-membership rendering returns exactly the atom. -/
theorem sets_roundtrip_witness :
    specAtomToken "! x/y" = some "x/y"
      ∧ formatted (⟨"x/y", [], true, false⟩ : EBuild) "sets" = some "x/y" := by
  have h := sets_roundtrip "! x/y" ⟨"x/y", [], true, false⟩ (by decide)
  exact ⟨h.1, h.2.1 rfl⟩

/-- C10 counterexample: the non-empty, all-whitespace line of three
spaces makes `PortageSet.import_set`'s classification raise (the
modelled `IndexError` from `line.lstrip()[0]`) instead of emitting a
Comment entry. -/
theorem whitespace_comment_cex :
    ("   " : String) ≠ ""
      ∧ ("   " : String).data.all isPySpace = true
      ∧ importLine "   " = none
      ∧ importLine "   " ≠ some (Entry.comment "   ") :=
  ⟨by decide, by decide, by decide, by decide⟩

/-- C10 (amended): on a non-empty line of only whitespace characters,
the class-based importer's classification fails with the modelled
`IndexError` — emitting no entry at all, in particular never an
EBuild — while the dict-based importer's token-driven classification
emits a Comment entry as it does for an empty line. -/
theorem whitespace_line_amended (line : String) (hne : line ≠ "")
    (hsp : ∀ c ∈ line.data, isPySpace c = true) :
    importLine line = none
      ∧ importLineDict line = some (.comment line) := by
  constructor
  · rw [importLine, if_neg hne]
    have hd : (pyLstrip line).data = [] :=
      List.dropWhile_eq_nil_iff.mpr (by simpa using hsp)
    simp only [hd]
  · have hs : pySplit line = [] := by
      rw [pySplit, pySplitChars_nil_of_spaces hsp]
      rfl
    simp [importLineDict, hs]

/-- The amended whitespace theorem applied at the line of three
spaces. -/
theorem whitespace_line_amended_witness :
    importLine "   " = none
      ∧ importLineDict "   " = some (.comment "   ") :=
  whitespace_line_amended "   " (by decide) (by decide)

/-! ### Validation against the package database -/

/-- C4: for an entry whose atom passes the syntax predicate and
resolves in the database, the unknown-flag set is the set difference
of the bare requested names minus the bare declared names, obtained by
stripping one leading `+`/`-` from each flag on both sides; check
returns false exactly when that difference is non-empty, and the
`UnknownUseFlag` diagnostic carries exactly that set of names. -/
theorem check_unknown_flags (db : PortageDB) (e : EBuild)
    (hva : db.isvalidatom e.cpv = true) (hres : db.xmatch e.cpv ≠ "") :
    (check db e = false ↔
        requestedBare e \ declaredBare db (db.xmatch e.cpv) ≠ ∅)
      ∧ (requestedBare e \ declaredBare db (db.xmatch e.cpv) ≠ ∅ →
          checkR db e
            = .unknownUseFlag
                (requestedBare e \ declaredBare db (db.xmatch e.cpv))) := by
  have h1 : checkR db e =
      (if requestedBare e \ declaredBare db (db.xmatch e.cpv) = ∅
        then CheckResult.ok
        else .unknownUseFlag
          (requestedBare e \ declaredBare db (db.xmatch e.cpv))) := by
    simp only [checkR, hva, Bool.not_true]
    rw [if_neg (by simp), if_neg hres]
  constructor
  · by_cases hq : requestedBare e \ declaredBare db (db.xmatch e.cpv) = ∅
    · simp [check, h1, hq]
    · simp [check, h1, hq]
  · intro hq
    rw [h1, if_neg hq]

/-- The unknown-flag theorem applied at the example of the claim: a
database declaring IUSE `foo +bar -baz` against requested flags
`foo qux` fails the check and reports exactly the set containing
`qux`. -/
theorem check_unknown_flags_witness :
    check ⟨fun _ => true, fun _ => "x/y-1.0", fun _ => "foo +bar -baz"⟩
        ⟨"x/y", ["foo", "qux"], false, false⟩ = false
      ∧ checkR ⟨fun _ => true, fun _ => "x/y-1.0", fun _ => "foo +bar -baz"⟩
          ⟨"x/y", ["foo", "qux"], false, false⟩
        = .unknownUseFlag {"qux"} := by
  have h := check_unknown_flags
    ⟨fun _ => true, fun _ => "x/y-1.0", fun _ => "foo +bar -baz"⟩
    ⟨"x/y", ["foo", "qux"], false, false⟩ rfl (by decide)
  refine ⟨h.1.mpr (by decide), ?_⟩
  rw [h.2 (by decide)]
  rw [show requestedBare ⟨"x/y", ["foo", "qux"], false, false⟩
        \ declaredBare
            ⟨fun _ => true, fun _ => "x/y-1.0", fun _ => "foo +bar -baz"⟩
            "x/y-1.0"
      = ({"qux"} : Finset String) from by decide]

/-- C5: check short-circuits on the first failure — an atom failing
the syntax predicate yields `invalidAtom` for every resolver and IUSE
oracle (neither is consulted); a syntactically valid atom with no
best visible match yields `atomNotFound` for every IUSE oracle; and
check returns true exactly when all three checks pass. -/
theorem check_short_circuit (iva : String → Bool) (xm iu : String → String)
    (e : EBuild) :
    (iva e.cpv = false →
        ∀ xm1 iu1 : String → String,
          checkR ⟨iva, xm1, iu1⟩ e = .invalidAtom)
      ∧ (iva e.cpv = true → xm e.cpv = "" →
          ∀ iu1 : String → String,
            checkR ⟨iva, xm, iu1⟩ e = .atomNotFound)
      ∧ (check ⟨iva, xm, iu⟩ e = true ↔
          iva e.cpv = true ∧ xm e.cpv ≠ ""
            ∧ requestedBare e
                \ declaredBare ⟨iva, xm, iu⟩ (xm e.cpv) = ∅) := by
  refine ⟨?_, ?_, ?_⟩
  · intro hva xm1 iu1
    simp [checkR, hva]
  · intro hva hxm iu1
    simp [checkR, hva, hxm]
  · by_cases hva : iva e.cpv = true
    · by_cases hxm : xm e.cpv = ""
      · simp [check, checkR, hva, hxm]
      · by_cases hq :
          requestedBare e \ declaredBare ⟨iva, xm, iu⟩ (xm e.cpv) = ∅
        · simp [check, checkR, hva, hxm, hq]
        · simp [check, checkR, hva, hxm, hq]
    · have hva0 : iva e.cpv = false := by simpa using hva
      simp [check, checkR, hva0]

/-! ### Output writing -/

/-- C8 evidence: go.py's write phase produces all three destination
files unconditionally — it takes no force flag and consults no
existence predicate — and portage-set-helper.py's collision test,
whose condition is inverted, detects nothing when force is unset,
even when every destination path already exists. -/
theorem output_collision_unchecked :
    mainWrites "out" [("world", [Entry.ebuild ⟨"x/y", [], false, false⟩])]
        = [("out/package.accept_keywords/world", ["#x/y"]),
           ("out/package.use/world", ["#x/y"]),
           ("out/sets/world", ["x/y"])]
      ∧ collisionDetected false (fun _ => true)
          ["dev/package.accept_keywords/world", "dev/package.use/world",
            "dev/sets/world"] = false :=
  ⟨by decide, rfl⟩

end PortageSetHelper
